import Mathlib

/-!
Verification development for the xrun batch command runner (main.go).
The Go source is shallowly embedded: each Go function that the claims
touch is translated into a Lean definition of the same name, file input
and subprocess results are supplied through explicit parameters (an
environment of oracles), and the observable side effects of a run are
collected into an explicit event trace.
-/

namespace Xrun

/-! ## Models of the Go standard library helpers used by main.go -/

/-- Whitespace test used by strings.Fields and strings.TrimSpace.
Go uses unicode.IsSpace; the Latin-1 part of that set is modelled here
(space, tab, newline, vertical tab, form feed, carriage return, NEL,
no-break space).  No input in this development contains whitespace
outside this set. -/
def goIsSpace (c : Char) : Bool :=
  c = ' ' || c = '\t' || c = '\n' || c = Char.ofNat 11 || c = Char.ofNat 12 ||
  c = '\r' || c = Char.ofNat 133 || c = Char.ofNat 160

/-- Helper for stringsFields: split a character list around runs of
whitespace, carrying the current (reversed) field. -/
def fieldsAux : List Char → List Char → List (List Char)
  | cur, [] => if cur = [] then [] else [cur.reverse]
  | cur, c :: rest =>
      if goIsSpace c then
        if cur = [] then fieldsAux [] rest
        else cur.reverse :: fieldsAux [] rest
      else fieldsAux (c :: cur) rest

/-- Model of strings.Fields: splits a string around runs of whitespace. -/
def stringsFields (s : String) : List String :=
  (fieldsAux [] s.data).map String.mk

/-- Model of strings.TrimSpace: removes leading and trailing whitespace. -/
def stringsTrimSpace (s : String) : String :=
  String.mk (((s.data.dropWhile goIsSpace).reverse.dropWhile goIsSpace).reverse)

/-- Model of strings.ToLower, restricted to ASCII letters (every file
extension in this development is ASCII). -/
def stringsToLower (s : String) : String :=
  String.mk (s.data.map Char.toLower)

/-- Helper for filepathExt: walk the reversed path, collecting the
suffix until a dot or a path separator. -/
def filepathExtAux : List Char → List Char → String
  | _, [] => ""
  | acc, c :: rest =>
      if c = '/' then ""
      else if c = '.' then String.mk ('.' :: acc)
      else filepathExtAux (c :: acc) rest

/-- Model of filepath.Ext: the suffix beginning at the final dot in the
final element of the path, empty if there is no dot. -/
def filepathExt (path : String) : String :=
  filepathExtAux [] path.data.reverse

/-- Helper for filepathBase: characters of the last path element, given
the reversed path with trailing separators removed. -/
def filepathBaseAux : List Char → List Char → List Char
  | acc, [] => acc
  | acc, c :: rest => if c = '/' then acc else filepathBaseAux (c :: acc) rest

/-- Model of filepath.Base: the last element of the path, with trailing
separators removed; "." for the empty path, "/" when the path is all
separators. -/
def filepathBase (path : String) : String :=
  if path = "" then "."
  else
    let trimmed := path.data.reverse.dropWhile (· = '/')
    if trimmed = [] then "/"
    else String.mk (filepathBaseAux [] trimmed)

/-- Log file name computed by createLogWriter: the base name of the data
file with its extension removed, wrapped as xrun-(base)-(timestamp).logs. -/
def logFileName (dataFile timestamp : String) : String :=
  let baseName := filepathBase dataFile
  let ext := filepathExt baseName
  let baseName := if ext ≠ "" then String.mk (baseName.data.take (baseName.length - ext.length)) else baseName
  "xrun-" ++ baseName ++ "-" ++ timestamp ++ ".logs"

/-! ## Model of the Go encoding/csv reader (default configuration)

The reader used by processCSVWithProgressExecutor is csv.NewReader with
the default settings: comma separator, no lazy quotes, and
FieldsPerRecord = 0, meaning the first record fixes the field count that
every later record must match exactly (a mismatch is a parse error).
Line endings are normalized by the reader: a CRLF pair becomes LF. -/

/-- Normalize CRLF pairs to LF, as csv.Reader.readLine does. -/
def normalizeCRLF : List Char → List Char
  | '\r' :: '\n' :: rest => '\n' :: normalizeCRLF rest
  | c :: rest => c :: normalizeCRLF rest
  | [] => []

/-- Lex one unquoted CSV field: its characters up to a comma, newline or
the end of input, together with the rest (separator included). -/
def csvLexUnquoted : List Char → List Char × List Char
  | [] => ([], [])
  | c :: rest =>
      if c = ',' ∨ c = '\n' then ([], c :: rest)
      else
        let (f, r) := csvLexUnquoted rest
        (c :: f, r)

/-- Lex the body of a quoted CSV field (the opening quote is already
consumed): a doubled quote is a literal quote, a closing quote must be
followed by a separator or the end of input, anything else after the
closing quote (or input ending inside the quotes) is a quote error. -/
def csvLexQuoted : List Char → Except String (List Char × List Char)
  | [] => .error "extraneous or missing \" in quoted-field"
  | '"' :: '"' :: rest => do
      let (f, r) ← csvLexQuoted rest
      .ok ('"' :: f, r)
  | ['"'] => .ok ([], [])
  | '"' :: ',' :: rest => .ok ([], ',' :: rest)
  | '"' :: '\n' :: rest => .ok ([], '\n' :: rest)
  | '"' :: _ => .error "extraneous or missing \" in quoted-field"
  | c :: rest => do
      let (f, r) ← csvLexQuoted rest
      .ok (c :: f, r)

/-- Lex one CSV field: quoted if it starts with a quote, unquoted
otherwise; an unquoted field containing a quote is a bare-quote error. -/
def csvLexField (cs : List Char) : Except String (String × List Char) :=
  match cs with
  | '"' :: rest => (csvLexQuoted rest).map (fun p => (String.mk p.1, p.2))
  | _ =>
      let (f, r) := csvLexUnquoted cs
      if '"' ∈ f then .error "bare \" in non-quoted field"
      else .ok (String.mk f, r)

/-- Lex the fields of one CSV record (fuel bounds the number of fields;
every call site supplies fuel larger than the input length). -/
def csvLexFields : Nat → List Char → Except String (List String × List Char)
  | 0, _ => .error "internal: fuel exhausted"
  | fuel + 1, cs => do
      let (f, r) ← csvLexField cs
      match r with
      | ',' :: r2 => do
          let (fs, r3) ← csvLexFields fuel r2
          .ok (f :: fs, r3)
      | '\n' :: r2 => .ok ([f], r2)
      | [] => .ok ([f], [])
      | _ => .error "internal: field not followed by a separator"

/-- Lex one CSV record, skipping blank lines as the Go reader does;
none means clean end of input. -/
def csvLexRecord : Nat → List Char → Except String (Option (List String × List Char))
  | 0, _ => .error "internal: fuel exhausted"
  | fuel + 1, cs =>
      match cs with
      | [] => .ok none
      | '\n' :: rest => csvLexRecord fuel rest
      | _ => (csvLexFields (fuel + 1) cs).map some

/-- Read the data rows after the header, enforcing the field count fixed
by the header record exactly as csv.Reader.Read does (FieldsPerRecord):
a row whose length differs from the header length is a parse error, and
the processing code turns any row error into a fatal abort. -/
def csvReadRows (hcount : Nat) : Nat → List Char → Except String (List (List String))
  | 0, _ => .error "internal: fuel exhausted"
  | fuel + 1, cs =>
      match csvLexRecord (fuel + 1) cs with
      | .error e => .error ("failed to read CSV row: " ++ e)
      | .ok none => .ok []
      | .ok (some (rec, rest)) =>
          if rec.length ≠ hcount then .error "failed to read CSV row: wrong number of fields"
          else (csvReadRows hcount fuel rest).map (rec :: ·)

/-- The header-then-rows reading performed by processCSVWithProgressExecutor:
read the header record, then collect every data row (each checked against
the header field count). -/
def csvReadAll (content : String) : Except String (List String × List (List String)) :=
  let cs := normalizeCRLF content.data
  match csvLexRecord (cs.length + 1) cs with
  | .error e => .error ("failed to read CSV headers: " ++ e)
  | .ok none => .error "failed to read CSV headers: EOF"
  | .ok (some (headers, rest)) => (csvReadRows headers.length cs.length rest).map (headers, ·)

/-- Structural lexing of every CSV record with no field count check;
used to state which inputs are structurally well formed. -/
def csvLexRows : Nat → List Char → Except String (List (List String))
  | 0, _ => .error "internal: fuel exhausted"
  | fuel + 1, cs =>
      match csvLexRecord (fuel + 1) cs with
      | .error e => .error e
      | .ok none => .ok []
      | .ok (some (rec, rest)) => (csvLexRows fuel rest).map (rec :: ·)

/-- The header record and data records of a CSV document, lexed with no
field count check; used to state which inputs are structurally well
formed apart from their field counts. -/
def csvLexRecords (content : String) : Except String (List (List String)) :=
  let cs := normalizeCRLF content.data
  match csvLexRecord (cs.length + 1) cs with
  | .error e => .error e
  | .ok none => .ok []
  | .ok (some (rec, rest)) => (csvLexRows cs.length rest).map (rec :: ·)

/-! ## Model of JSON values and of encoding/json as used by main.go

Go decodes JSON numbers into float64 and later re-formats them with the
verb used by fmt.Sprintf with percent-g, which produces the shortest
decimal string denoting the same float64.  Numbers are modelled here as
exact decimal values (an integer mantissa and a power of ten): for
decimals of at most fifteen significant digits the decode-then-shortest
round trip of float64 reproduces the normalized input decimal, which is
exactly what this model computes.  Every number appearing in a theorem
below has at most three significant digits. -/

/-- A decoded JSON number: the value is mantissa times ten to exp10. -/
structure GoFloat where
  mantissa : Int
  exp10 : Int
deriving Repr, DecidableEq

/-- Digits of a natural number followed by count zeros. -/
def padZeros (s : String) (count : Nat) : String :=
  s ++ String.mk (List.replicate count '0')

/-- Render a positive exponent tail for the e-form: sign then at least
two digits, as the Go formatter does. -/
def expTail (exp : Int) : String :=
  let a := exp.natAbs
  let d := toString a
  let d := if a < 10 then "0" ++ d else d
  (if exp < 0 then "e-" else "e+") ++ d

/-- The fixed-point rendering of a digit string with decimal point
position dp (value = 0.digits times ten to dp). -/
def fixedForm (digits : String) (dp : Int) : String :=
  if dp ≤ 0 then "0." ++ String.mk (List.replicate (-dp).toNat '0') ++ digits
  else if dp < digits.length then
    String.mk (digits.data.take dp.toNat) ++ "." ++ String.mk (digits.data.drop dp.toNat)
  else padZeros digits (dp.toNat - digits.length)

/-- The scientific rendering of a digit string with decimal exponent
exp (value = d.ddd times ten to exp). -/
def sciForm (digits : String) (exp : Int) : String :=
  match digits.data with
  | [] => "0" ++ expTail exp
  | d :: rest =>
      (if rest = [] then String.mk [d] else String.mk [d] ++ "." ++ String.mk rest) ++ expTail exp

/-- Model of the Sprintf percent-g formatting of a float64 (shortest
form): the shortest digit string, fixed-point when the decimal exponent
of the leading digit is in the range -4 to 5, scientific otherwise.
Negative zero (which Go prints as -0) cannot arise from JSON input of a
nonzero literal and is not modelled. -/
def formatFloatG (f : GoFloat) : String :=
  if f.mantissa = 0 then "0"
  else
    let sign := if f.mantissa < 0 then "-" else ""
    let raw := toString f.mantissa.natAbs
    let stripped := String.mk ((raw.data.reverse.dropWhile (· = '0')).reverse)
    let e := f.exp10 + (raw.length - stripped.length)
    let dp : Int := e + stripped.length
    let exp : Int := dp - 1
    if exp < -4 ∨ 6 ≤ exp then sign ++ sciForm stripped exp
    else sign ++ fixedForm stripped dp

mutual

/-- Decoded JSON values, with object fields already deduplicated the
way decoding into a Go map leaves them (a later duplicate key
overwrites the earlier value).  Arrays and object field lists are their
own inductives so that the recursions below stay structural. -/
inductive JSONVal where
  | null
  | bool (b : Bool)
  | num (f : GoFloat)
  | str (s : String)
  | arr (items : JSONItems)
  | obj (fields : JSONFields)

/-- The items of a decoded JSON array, in order. -/
inductive JSONItems where
  | nil
  | cons (v : JSONVal) (rest : JSONItems)

/-- The fields of a decoded JSON object. -/
inductive JSONFields where
  | nil
  | cons (key : String) (v : JSONVal) (rest : JSONFields)

end

/-- Overwrite-or-append for object fields, the map write semantics of
decoding a duplicate key. -/
def setField (fields : JSONFields) (k : String) (v : JSONVal) : JSONFields :=
  match fields with
  | .nil => .cons k v .nil
  | .cons k0 v0 rest =>
      if k0 = k then .cons k v rest else .cons k0 v0 (setField rest k v)

/-- Build array items from a list. -/
def itemsOfList : List JSONVal → JSONItems
  | [] => .nil
  | v :: rest => .cons v (itemsOfList rest)

/-- The items of an array as a list. -/
def itemsToList : JSONItems → List JSONVal
  | .nil => []
  | .cons v rest => v :: itemsToList rest

/-- Skip JSON whitespace. -/
def jsonSkipWS : List Char → List Char
  | [] => []
  | c :: rest =>
      if c = ' ' ∨ c = '\t' ∨ c = '\n' ∨ c = '\r' then jsonSkipWS rest else c :: rest

/-- Value of a hexadecimal digit. -/
def jsonHexVal (c : Char) : Option Nat :=
  if '0' ≤ c ∧ c ≤ '9' then some (c.toNat - '0'.toNat)
  else if 'a' ≤ c ∧ c ≤ 'f' then some (c.toNat - 'a'.toNat + 10)
  else if 'A' ≤ c ∧ c ≤ 'F' then some (c.toNat - 'A'.toNat + 10)
  else none

/-- Lex a JSON string body (the opening quote is already consumed),
handling the escape sequences of the JSON grammar.  Surrogate pair
combination is not modelled; no input below uses the uXXXX escape. -/
def jsonParseString : List Char → Except String (List Char × List Char)
  | [] => .error "unexpected end of JSON input"
  | '"' :: rest => .ok ([], rest)
  | '\\' :: '"' :: rest => do
      let (s, r) ← jsonParseString rest
      .ok ('"' :: s, r)
  | '\\' :: '\\' :: rest => do
      let (s, r) ← jsonParseString rest
      .ok ('\\' :: s, r)
  | '\\' :: '/' :: rest => do
      let (s, r) ← jsonParseString rest
      .ok ('/' :: s, r)
  | '\\' :: 'b' :: rest => do
      let (s, r) ← jsonParseString rest
      .ok (Char.ofNat 8 :: s, r)
  | '\\' :: 'f' :: rest => do
      let (s, r) ← jsonParseString rest
      .ok (Char.ofNat 12 :: s, r)
  | '\\' :: 'n' :: rest => do
      let (s, r) ← jsonParseString rest
      .ok ('\n' :: s, r)
  | '\\' :: 'r' :: rest => do
      let (s, r) ← jsonParseString rest
      .ok ('\r' :: s, r)
  | '\\' :: 't' :: rest => do
      let (s, r) ← jsonParseString rest
      .ok ('\t' :: s, r)
  | '\\' :: 'u' :: h1 :: h2 :: h3 :: h4 :: rest => do
      match jsonHexVal h1, jsonHexVal h2, jsonHexVal h3, jsonHexVal h4 with
      | some a, some b, some c, some d => do
          let (s, r) ← jsonParseString rest
          .ok (Char.ofNat (((a * 16 + b) * 16 + c) * 16 + d) :: s, r)
      | _, _, _, _ => .error "invalid character in string escape"
  | '\\' :: _ => .error "invalid character in string escape"
  | c :: rest =>
      if c.toNat < 32 then .error "invalid character in string literal"
      else do
        let (s, r) ← jsonParseString rest
        .ok (c :: s, r)

/-- Take a run of decimal digits. -/
def jsonTakeDigits : List Char → List Char × List Char
  | [] => ([], [])
  | c :: rest =>
      if c.isDigit then
        let (d, r) := jsonTakeDigits rest
        (c :: d, r)
      else ([], c :: rest)

/-- Numeric value of a digit run. -/
def digitsToNat (ds : List Char) : Nat :=
  ds.foldl (fun acc c => acc * 10 + (c.toNat - '0'.toNat)) 0

/-- Lex a JSON number literal into its exact decimal value, following
the JSON grammar (no leading zeros, mandatory digits around the point). -/
def jsonParseNumber (cs : List Char) : Except String (GoFloat × List Char) :=
  let (neg, cs1) := match cs with
    | '-' :: rest => (true, rest)
    | _ => (false, cs)
  let (intPart, cs2) := jsonTakeDigits cs1
  match intPart with
  | [] => .error "invalid number literal"
  | d0 :: drest =>
      if d0 = '0' ∧ drest ≠ [] then .error "invalid number literal"
      else
        let hadPoint := match cs2 with
          | '.' :: _ => true
          | _ => false
        let (fracPart, cs3) := match cs2 with
          | '.' :: rest => jsonTakeDigits rest
          | _ => ([], cs2)
        if hadPoint ∧ fracPart = [] then .error "invalid number literal"
        else
          match cs3 with
          | 'e' :: rest | 'E' :: rest =>
              let (eneg, rest2) := match rest with
                | '-' :: r => (true, r)
                | '+' :: r => (false, r)
                | _ => (false, rest)
              let (eDigits, cs5) := jsonTakeDigits rest2
              if eDigits = [] then .error "invalid number literal"
              else
                let epow : Int := (digitsToNat eDigits : Int)
                let epow := if eneg then -epow else epow
                let m : Int := (digitsToNat (intPart ++ fracPart) : Int)
                let m := if neg then -m else m
                .ok (⟨m, epow - fracPart.length⟩, cs5)
          | _ =>
              let m : Int := (digitsToNat (intPart ++ fracPart) : Int)
              let m := if neg then -m else m
              .ok (⟨m, -(fracPart.length : Int)⟩, cs3)

mutual

/-- Recursive descent over one JSON value.  The fuel only bounds the
nesting recursion; every call site supplies fuel beyond the input
length, which always suffices since each nested call consumes at least
one character first. -/
def jsonParseValue : Nat → List Char → Except String (JSONVal × List Char)
  | 0, _ => .error "internal: fuel exhausted"
  | fuel + 1, cs =>
      match jsonSkipWS cs with
      | 't' :: 'r' :: 'u' :: 'e' :: r => .ok (.bool true, r)
      | 'f' :: 'a' :: 'l' :: 's' :: 'e' :: r => .ok (.bool false, r)
      | 'n' :: 'u' :: 'l' :: 'l' :: r => .ok (.null, r)
      | '"' :: r => (jsonParseString r).map (fun p => (.str (String.mk p.1), p.2))
      | '{' :: r =>
          (match jsonSkipWS r with
           | '}' :: r2 => .ok (.obj .nil, r2)
           | _ => jsonParseMembers fuel r .nil)
      | '[' :: r =>
          (match jsonSkipWS r with
           | ']' :: r2 => .ok (.arr .nil, r2)
           | _ => jsonParseItems fuel r [])
      | c :: r =>
          if c.isDigit ∨ c = '-' then
            (jsonParseNumber (c :: r)).map (fun p => (.num p.1, p.2))
          else .error "invalid character"
      | [] => .error "unexpected end of JSON input"

/-- Members of a JSON object after the opening brace, accumulating
fields with overwrite-on-duplicate map semantics. -/
def jsonParseMembers : Nat → List Char → JSONFields →
    Except String (JSONVal × List Char)
  | 0, _, _ => .error "internal: fuel exhausted"
  | fuel + 1, cs, acc =>
      match jsonSkipWS cs with
      | '"' :: r => do
          let (k, r2) ← jsonParseString r
          match jsonSkipWS r2 with
          | ':' :: r3 => do
              let (v, r4) ← jsonParseValue fuel r3
              let acc2 := setField acc (String.mk k) v
              match jsonSkipWS r4 with
              | ',' :: r5 => jsonParseMembers fuel r5 acc2
              | '}' :: r5 => .ok (.obj acc2, r5)
              | _ => .error "invalid character after object member"
          | _ => .error "invalid character after object key"
      | _ => .error "invalid character looking for object key"

/-- Items of a JSON array after the opening bracket. -/
def jsonParseItems : Nat → List Char → List JSONVal →
    Except String (JSONVal × List Char)
  | 0, _, _ => .error "internal: fuel exhausted"
  | fuel + 1, cs, acc => do
      let (v, r) ← jsonParseValue fuel cs
      match jsonSkipWS r with
      | ',' :: r2 => jsonParseItems fuel r2 (acc ++ [v])
      | ']' :: r2 => .ok (.arr (itemsOfList (acc ++ [v])), r2)
      | _ => .error "invalid character in array"

end

/-- Model of json.Unmarshal of a whole byte slice: one JSON value with
nothing but whitespace after it. -/
def jsonUnmarshal (s : String) : Except String JSONVal := do
  let cs := s.data
  let (v, rest) ← jsonParseValue (cs.length + 1) cs
  match jsonSkipWS rest with
  | [] => .ok v
  | _ => .error "invalid character after top-level value"

/-- Model of json.Unmarshal into a Go map used per JSONL line: the
value must be an object (whose fields become the record) or null (which
leaves the map nil, hence an empty record, with no error). -/
def jsonUnmarshalObject (line : String) : Except String JSONFields :=
  match jsonUnmarshal line with
  | .error e => .error e
  | .ok (.obj fields) => .ok fields
  | .ok .null => .ok .nil
  | .ok _ => .error "cannot unmarshal value into map"

/-- Model of json.Decoder.Decode into a slice of maps used by the JSON
array path: the decoder reads the first JSON value of the stream
(trailing bytes are ignored), which must be an array whose elements are
objects (or null, which contributes a nil map). -/
def jsonDecodeArrayOfObjects (content : String) :
    Except String (List JSONFields) := do
  let cs := content.data
  let (v, _) ← jsonParseValue (cs.length + 1) cs
  match v with
  | .arr xs =>
      (itemsToList xs).mapM fun x =>
        match x with
        | .obj fields => .ok fields
        | .null => .ok .nil
        | _ => .error "cannot unmarshal value into map"
  | .null => .ok []
  | _ => .error "cannot unmarshal value into array"

/-! ## Model of json.Marshal for the nested-value fallback coercion -/

/-- Hexadecimal digit (lower case). -/
def hexDigit (n : Nat) : Char :=
  if n < 10 then Char.ofNat ('0'.toNat + n) else Char.ofNat ('a'.toNat + n - 10)

/-- Model of the string escaping of encoding/json with its default
HTML escaping: quote, backslash, the three HTML characters, the line
and paragraph separators, and control characters. -/
def jsonEscapeChar (c : Char) : String :=
  if c = '"' then "\\\""
  else if c = '\\' then "\\\\"
  else if c = '\n' then "\\n"
  else if c = '\r' then "\\r"
  else if c = '\t' then "\\t"
  else if c.toNat < 32 then
    "\\u00" ++ String.mk [hexDigit (c.toNat / 16), hexDigit (c.toNat % 16)]
  else if c = '<' then "\\u003c"
  else if c = '>' then "\\u003e"
  else if c = '&' then "\\u0026"
  else if c.toNat = 8232 then "\\u2028"
  else if c.toNat = 8233 then "\\u2029"
  else String.mk [c]

/-- A JSON string literal as encoding/json writes it. -/
def jsonQuote (s : String) : String :=
  "\"" ++ String.join (s.data.map jsonEscapeChar) ++ "\""

/-- Compact a trailing two-character negative exponent e-0X to e-X, the
cleanup the json encoder applies after scientific formatting. -/
def compactExp (s : String) : String :=
  match s.data.reverse with
  | x :: '0' :: '-' :: 'e' :: rest => String.mk ((x :: '-' :: 'e' :: rest).reverse)
  | _ => s

/-- Number output of encoding/json: fixed-point for magnitudes between
1e-6 and 1e21, scientific otherwise, with a single-digit negative
exponent compacted (matching the ES6 conversion the package implements). -/
def jsonNumFormat (f : GoFloat) : String :=
  if f.mantissa = 0 then "0"
  else
    let sign := if f.mantissa < 0 then "-" else ""
    let raw := toString f.mantissa.natAbs
    let stripped := String.mk ((raw.data.reverse.dropWhile (· = '0')).reverse)
    let e := f.exp10 + (raw.length - stripped.length)
    let dp : Int := e + stripped.length
    if dp ≤ -6 ∨ 22 ≤ dp then sign ++ compactExp (sciForm stripped (dp - 1))
    else sign ++ fixedForm stripped dp

/-- Lexicographic comparison of character lists by code point, which on
valid UTF-8 agrees with the byte-wise string order Go sorts by. -/
def charListLt : List Char → List Char → Bool
  | [], [] => false
  | [], _ :: _ => true
  | _ :: _, [] => false
  | a :: as, b :: bs =>
      if a.toNat < b.toNat then true
      else if b.toNat < a.toNat then false
      else charListLt as bs

/-- String order used for the sorted keys of a marshalled map. -/
def stringLtB (a b : String) : Bool :=
  charListLt a.data b.data

/-- Insertion into a key-sorted field list, for the sorted-key object
output of json.Marshal. -/
def insertSorted (p : String × String) : List (String × String) → List (String × String)
  | [] => [p]
  | q :: rest => if stringLtB p.1 q.1 then p :: q :: rest else q :: insertSorted p rest

/-- Sort marshalled object fields by key, as json.Marshal sorts Go map
keys. -/
def sortFields (l : List (String × String)) : List (String × String) :=
  l.foldr insertSorted []

mutual

/-- Model of json.Marshal restricted to decoded values: compact output,
object keys sorted. -/
def goJSONMarshal : JSONVal → String
  | .null => "null"
  | .bool b => if b then "true" else "false"
  | .num f => jsonNumFormat f
  | .str s => jsonQuote s
  | .arr xs => "[" ++ String.intercalate "," (goJSONMarshalItems xs) ++ "]"
  | .obj fields =>
      "\x7b" ++ String.intercalate ","
        ((sortFields (goJSONMarshalFields fields)).map fun p => jsonQuote p.1 ++ ":" ++ p.2) ++
        "\x7d"
termination_by structural v => v

/-- Marshal each array item. -/
def goJSONMarshalItems : JSONItems → List String
  | .nil => []
  | .cons v rest => goJSONMarshal v :: goJSONMarshalItems rest
termination_by structural xs => xs

/-- Marshal each object field value. -/
def goJSONMarshalFields : JSONFields → List (String × String)
  | .nil => []
  | .cons k v rest => (k, goJSONMarshal v) :: goJSONMarshalFields rest
termination_by structural fs => fs

end

/-! ## Value coercion and records -/

/-- The per-value switch of processJSONWithProgressExecutor and
processJSONLWithProgressExecutor: nil becomes the empty string, strings
pass through, float64 is formatted with percent-g, bool with percent-t,
and every other decoded value is re-marshalled to its compact JSON
form. -/
def coerceValue : JSONVal → String
  | .null => ""
  | .str s => s
  | .num f => formatFloatG f
  | .bool b => if b then "true" else "false"
  | v => goJSONMarshal v

/-- The stringRow map built from a decoded JSON object. -/
def buildStringRow : JSONFields → List (String × String)
  | .nil => []
  | .cons k v rest => (k, coerceValue v) :: buildStringRow rest

/-- Lookup in a Go map modelled as an association list where a later
binding for the same key overwrites an earlier one. -/
def goMapGet (m : List (String × String)) (k : String) : Option String :=
  m.foldl (fun acc p => if p.1 = k then some p.2 else acc) none

/-- The data map built from CSV headers and one row: each header is
bound to the row value at its position when the row is long enough
(map writes in header order, so a duplicate header keeps the later
value). -/
def buildRecord (headers row : List String) : List (String × String) :=
  headers.enum.filterMap fun p => (row.get? p.1).map fun v => (p.2, v)

/-! ## Model of text/template restricted to the fragment main.go uses

The command templates consist of literal text and field actions of the
shape open-braces dot name close-braces.  The parser models the
text/template lexer on this fragment: text up to a double open brace,
then an action that must be closed by a double close brace before the
input ends (otherwise parsing fails with an unclosed action error,
exactly the fatal path the claims describe), and the action body must
be a dot followed by a field identifier (any other body is rejected at
parse time, as the full engine rejects unknown functions).  Execution
over a string map never fails on this fragment; with the default
missingkey option the engine prints the no-value marker for a key
absent from the map. -/

inductive TmplNode where
  | text (s : String)
  | field (name : String)
deriving Repr, DecidableEq

/-- Characters allowed in a field identifier. -/
def isFieldIdentChar (c : Char) : Bool :=
  c.isAlphanum || c = '_'

/-- Parse one action body (the text between the brace pairs). -/
def parseAction (s : String) : Except String TmplNode :=
  match (stringsTrimSpace s).data with
  | '.' :: rest =>
      if rest ≠ [] ∧ rest.all isFieldIdentChar then .ok (.field (String.mk rest))
      else .error "bad character in action"
  | _ => .error "function not defined"

/-- Split at the first double open brace: the text before it and, when
present, the rest after it. -/
def splitAtOpen : List Char → List Char × Option (List Char)
  | [] => ([], none)
  | '{' :: '{' :: rest => ([], some rest)
  | c :: rest =>
      let (t, o) := splitAtOpen rest
      (c :: t, o)

/-- Split at the first double close brace: the text before it and the
rest after it, none when the input ends first. -/
def splitAtClose : List Char → Option (List Char × List Char)
  | [] => none
  | '}' :: '}' :: rest => some ([], rest)
  | c :: rest => (splitAtClose rest).map fun p => (c :: p.1, p.2)

/-- Parse a template into its node list (fuel bounds the number of
actions; call sites supply fuel beyond the input length). -/
def templateParseAux : Nat → List Char → Except String (List TmplNode)
  | 0, _ => .error "internal: fuel exhausted"
  | fuel + 1, cs =>
      match splitAtOpen cs with
      | (text, none) => .ok (if text = [] then [] else [.text (String.mk text)])
      | (text, some rest) =>
          match splitAtClose rest with
          | none => .error "unclosed action"
          | some (inside, rest2) => do
              let node ← parseAction (String.mk inside)
              let nodes ← templateParseAux fuel rest2
              .ok ((if text = [] then [] else [.text (String.mk text)]) ++ node :: nodes)

/-- Model of template.New(..).Parse on the fragment described above. -/
def templateParse (execTemplate : String) : Except String (List TmplNode) :=
  templateParseAux (execTemplate.length + 1) execTemplate.data

/-- Model of Template.Execute over a string map: text passes through
and a field action renders the map value, or the no-value marker when
the key is absent (the default missingkey behaviour of the engine). -/
def templateExecute (nodes : List TmplNode) (m : List (String × String)) : String :=
  nodes.foldl
    (fun acc n =>
      acc ++ match n with
        | .text s => s
        | .field f =>
            match goMapGet m f with
            | some v => v
            | none => "<no value>")
    ""

/-! ## Event traces, executors and the processing pipeline

Side effects are collected in an event trace.  A dispatch event records
each invocation of the injected progress-aware executor by a processing
loop, with the rendered command and the progress pair it was given; the
other events record writes to standard output and standard error,
writes to the log file, the creation of the log file, and each
subprocess start.  Subprocess outcomes and file contents come from an
explicit environment of oracles. -/

inductive Event where
  | stdoutLine (s : String)
  | stderrLine (s : String)
  | logLine (s : String)
  | spawn (prog : String) (args : List String)
  | createLog (name : String)
  | dispatch (command : String) (current total : Nat)
deriving Repr, DecidableEq

/-- The ProgressAwareCommandExecutor function type: a command with its
progress pair, producing its own events and its error result. -/
def Executor : Type :=
  String → Nat → Nat → List Event × Except String Unit

/-- Model of printCommand, the dry-run executor: one line on standard
output, never an error. -/
def printCommand : Executor :=
  fun command _ _ => ([Event.stdoutLine command], .ok ())

/-- Model of executeCommandWithProgressAndLogging: the command is split
into whitespace-separated fields, an empty field list is the empty
command error, otherwise the first field is started as the program with
the remaining fields as its literal arguments; the progress line is
printed (and logged when a log writer is attached) before the
subprocess runs; the run result comes from the oracle. -/
def executeCommandWithProgressAndLogging
    (runOracle : String → List String → Except String Unit)
    (timestamp : String) (logOn : Bool) : Executor :=
  fun command current total =>
    match stringsFields command with
    | [] => ([], .error "empty command")
    | prog :: args =>
        let logMessage :=
          if 0 < current ∧ 0 < total then
            s!"[{current}/{total}] {timestamp} Executing: {command}"
          else s!"{timestamp} Executing: {command}"
        ([Event.stdoutLine logMessage] ++
           (if logOn then [Event.logLine logMessage] else []) ++
           [Event.spawn prog args],
         runOracle prog args)

/-- The stderr report a processing loop emits when the executor call
returns an error. -/
def execErrEvents : Except String Unit → List Event
  | .ok _ => []
  | .error e => [Event.stderrLine ("Command execution error: " ++ e)]

/-- The per-record loop shared by the CSV and JSON array paths: for
each record (already turned into a string map) render the template,
record the dispatch with its one-based position and the total, run the
executor, and report an executor error on standard error without
stopping.  On this template fragment rendering cannot fail, so the
template-execution-error branch of the source loop is unreachable. -/
def recordLoop (executor : Executor) (nodes : List TmplNode) (total : Nat) :
    Nat → List (List (String × String)) → List Event
  | _, [] => []
  | i, rec :: rest =>
      let command := templateExecute nodes rec
      Event.dispatch command i total ::
        ((executor command i total).1 ++ execErrEvents (executor command i total).2) ++
        recordLoop executor nodes total (i + 1) rest

/-- Model of processCSVWithProgressExecutor: open the file, read the
header and then every row (any reader error is fatal), parse the
template, and loop over the rows; per-record executor failures are
reported but the function returns success. -/
def processCSVWithProgressExecutor (openResult : Option String)
    (execTemplate : String) (executor : Executor) :
    List Event × Except String Unit :=
  match openResult with
  | none => ([], .error "failed to open data file")
  | some content =>
      match csvReadAll content with
      | .error e => ([], .error e)
      | .ok (headers, allRows) =>
          match templateParse execTemplate with
          | .error e => ([], .error ("failed to parse template: " ++ e))
          | .ok nodes =>
              (recordLoop executor nodes allRows.length 1
                 (allRows.map (buildRecord headers)), .ok ())

/-- Model of processJSONWithProgressExecutor: open the file, decode the
whole array of objects (failure is fatal), parse the template, and looped
over the decoded records. -/
def processJSONWithProgressExecutor (openResult : Option String)
    (execTemplate : String) (executor : Executor) :
    List Event × Except String Unit :=
  match openResult with
  | none => ([], .error "failed to open data file")
  | some content =>
      match jsonDecodeArrayOfObjects content with
      | .error e => ([], .error ("failed to parse JSON: " ++ e))
      | .ok data =>
          match templateParse execTemplate with
          | .error e => ([], .error ("failed to parse template: " ++ e))
          | .ok nodes =>
              (recordLoop executor nodes data.length 1 (data.map buildStringRow), .ok ())

/-- Split a character list at newline characters. -/
def splitLines : List Char → List (List Char)
  | [] => [[]]
  | '\n' :: rest => [] :: splitLines rest
  | c :: rest =>
      match splitLines rest with
      | [] => [[c]]
      | l :: ls => (c :: l) :: ls

/-- The non-blank trimmed lines the JSONL path materializes before its
loop (the scanner splits at newlines; trimming subsumes its handling of
a carriage return before the newline, and blank lines are skipped). -/
def jsonlLines (content : String) : List String :=
  ((splitLines content.data).map (fun l => stringsTrimSpace (String.mk l))).filter (· ≠ "")

/-- The per-line loop of the JSONL path: a line that fails to decode is
reported on standard error with its one-based position and skipped; a
decoded line is rendered and dispatched like a CSV row. -/
def jsonlLoop (executor : Executor) (nodes : List TmplNode) (total : Nat) :
    Nat → List String → List Event
  | _, [] => []
  | i, line :: rest =>
      (match jsonUnmarshalObject line with
       | .error e =>
           [Event.stderrLine ("Failed to parse JSON on line " ++ toString i ++ ": " ++ e)]
       | .ok row =>
           let command := templateExecute nodes (buildStringRow row)
           Event.dispatch command i total ::
             (executor command i total).1 ++ execErrEvents (executor command i total).2) ++
      jsonlLoop executor nodes total (i + 1) rest

/-- Model of processJSONLWithProgressExecutor: open the file, parse the
template (before any line is read), materialize the non-blank lines,
and loop over them; both decode failures and executor failures are
per-line and the function returns success. -/
def processJSONLWithProgressExecutor (openResult : Option String)
    (execTemplate : String) (executor : Executor) :
    List Event × Except String Unit :=
  match openResult with
  | none => ([], .error "failed to open data file")
  | some content =>
      match templateParse execTemplate with
      | .error e => ([], .error ("failed to parse template: " ++ e))
      | .ok nodes =>
          let allLines := jsonlLines content
          (jsonlLoop executor nodes allLines.length 1 allLines, .ok ())

/-- The run environment: file contents by path (none models an open
failure), whether creating the log file succeeds, the subprocess result
oracle, and the two captured timestamps. -/
structure Env where
  fs : String → Option String
  logCreateOk : Bool
  runOracle : String → List String → Except String Unit
  timestamp : String
  logTimestamp : String

/-- The extension dispatch shared by processDataFileWithOptions: json
and jsonl by lower-cased extension, everything else falls back to CSV. -/
def dispatchByExt (env : Env) (dataFile execTemplate : String) (executor : Executor) :
    List Event × Except String Unit :=
  if stringsToLower (filepathExt dataFile) = ".json" then
    processJSONWithProgressExecutor (env.fs dataFile) execTemplate executor
  else if stringsToLower (filepathExt dataFile) = ".jsonl" then
    processJSONLWithProgressExecutor (env.fs dataFile) execTemplate executor
  else
    processCSVWithProgressExecutor (env.fs dataFile) execTemplate executor

/-- Model of processDataFileWithOptions: unless the run is a dry run or
log files are suppressed, the log file is created first (a creation
failure is fatal); the executor is the printing one for a dry run and
the executing one otherwise, with log duplication exactly when a log
writer was created. -/
def processDataFileWithOptions (env : Env) (dataFile execTemplate : String)
    (dryRun noLogFiles : Bool) : List Event × Except String Unit :=
  if ¬dryRun ∧ ¬noLogFiles then
    if env.logCreateOk then
      (Event.createLog (logFileName dataFile env.logTimestamp) ::
         (dispatchByExt env dataFile execTemplate
           (executeCommandWithProgressAndLogging env.runOracle env.timestamp true)).1,
       (dispatchByExt env dataFile execTemplate
         (executeCommandWithProgressAndLogging env.runOracle env.timestamp true)).2)
    else ([], .error "failed to create log file")
  else
    dispatchByExt env dataFile execTemplate
      (if dryRun then printCommand
       else executeCommandWithProgressAndLogging env.runOracle env.timestamp false)

/-! ## Observations over event traces -/

/-- The dispatch observation of one event. -/
def dispatchTripleOf : Event → Option (String × Nat × Nat)
  | .dispatch c i t => some (c, i, t)
  | _ => none

/-- The standard output observation of one event. -/
def stdoutLineOf : Event → Option String
  | .stdoutLine s => some s
  | _ => none

/-- The standard error observation of one event. -/
def stderrLineOf : Event → Option String
  | .stderrLine s => some s
  | _ => none

/-- The subprocess observation of one event. -/
def spawnCallOf : Event → Option (String × List String)
  | .spawn p a => some (p, a)
  | _ => none

/-- The log creation observation of one event. -/
def createLogOf : Event → Option String
  | .createLog n => some n
  | _ => none

/-- The dispatch events of a trace: rendered command with its progress
pair, in order. -/
def dispatchTriples (evs : List Event) : List (String × Nat × Nat) :=
  evs.filterMap dispatchTripleOf

/-- The rendered commands handed to the executor, in order. -/
def dispatchedCommands (evs : List Event) : List String :=
  (dispatchTriples evs).map (·.1)

/-- The standard output lines of a trace, in order. -/
def stdoutLines (evs : List Event) : List String :=
  evs.filterMap stdoutLineOf

/-- The standard error lines of a trace, in order. -/
def stderrLines (evs : List Event) : List String :=
  evs.filterMap stderrLineOf

/-- The subprocess starts of a trace, in order. -/
def spawnCalls (evs : List Event) : List (String × List String) :=
  evs.filterMap spawnCallOf

/-- The log files created during a trace. -/
def createLogCalls (evs : List Event) : List String :=
  evs.filterMap createLogOf

/-- An executor that emits no dispatch events of its own, so that the
dispatch events of a processed trace are exactly the loop invocations. -/
def noDispatchEvents (ex : Executor) : Prop :=
  ∀ c i t, dispatchTriples (ex c i t).1 = []

/-- An executor that emits nothing on standard error. -/
def noStderrEvents (ex : Executor) : Prop :=
  ∀ c i t, stderrLines (ex c i t).1 = []

/-- An executor whose result is always success. -/
def alwaysOk (ex : Executor) : Prop :=
  ∀ c i t, (ex c i t).2 = .ok ()

/-! ## Facts about the executors and the processing loops -/

theorem dispatchTriples_append (a b : List Event) :
    dispatchTriples (a ++ b) = dispatchTriples a ++ dispatchTriples b := by
  simp [dispatchTriples]

theorem stdoutLines_append (a b : List Event) :
    stdoutLines (a ++ b) = stdoutLines a ++ stdoutLines b := by
  simp [stdoutLines]

theorem stderrLines_append (a b : List Event) :
    stderrLines (a ++ b) = stderrLines a ++ stderrLines b := by
  simp [stderrLines]

theorem spawnCalls_append (a b : List Event) :
    spawnCalls (a ++ b) = spawnCalls a ++ spawnCalls b := by
  simp [spawnCalls]

theorem createLogCalls_append (a b : List Event) :
    createLogCalls (a ++ b) = createLogCalls a ++ createLogCalls b := by
  simp [createLogCalls]

theorem dispatchTriples_execErrEvents (r : Except String Unit) :
    dispatchTriples (execErrEvents r) = [] := by
  cases r <;> rfl

theorem stdoutLines_execErrEvents (r : Except String Unit) :
    stdoutLines (execErrEvents r) = [] := by
  cases r <;> rfl

theorem spawnCalls_execErrEvents (r : Except String Unit) :
    spawnCalls (execErrEvents r) = [] := by
  cases r <;> rfl

theorem createLogCalls_execErrEvents (r : Except String Unit) :
    createLogCalls (execErrEvents r) = [] := by
  cases r <;> rfl

theorem stderrLines_execErrEvents (r : Except String Unit) :
    stderrLines (execErrEvents r) =
      (match r with
       | .ok _ => []
       | .error e => ["Command execution error: " ++ e]) := by
  cases r <;> rfl

/-- The print executor emits no dispatch events. -/
theorem printCommand_noDispatchEvents : noDispatchEvents printCommand :=
  fun _ _ _ => rfl

/-- The print executor emits nothing on standard error. -/
theorem printCommand_noStderrEvents : noStderrEvents printCommand :=
  fun _ _ _ => rfl

/-- The print executor always succeeds. -/
theorem printCommand_alwaysOk : alwaysOk printCommand :=
  fun _ _ _ => rfl

/-- The executing executor emits no dispatch events. -/
theorem execCmd_noDispatchEvents (run : String → List String → Except String Unit)
    (ts : String) (logOn : Bool) :
    noDispatchEvents (executeCommandWithProgressAndLogging run ts logOn) := by
  intro c i t
  unfold executeCommandWithProgressAndLogging
  cases stringsFields c with
  | nil => rfl
  | cons p args => cases logOn <;> simp [dispatchTriples, dispatchTripleOf]

/-- The executing executor emits nothing on standard error itself (the
loop reports its failures). -/
theorem execCmd_noStderrEvents (run : String → List String → Except String Unit)
    (ts : String) (logOn : Bool) :
    noStderrEvents (executeCommandWithProgressAndLogging run ts logOn) := by
  intro c i t
  unfold executeCommandWithProgressAndLogging
  cases stringsFields c with
  | nil => rfl
  | cons p args => cases logOn <;> simp [stderrLines, stderrLineOf]

/-- The dispatch events of a record loop are exactly its invocations:
the rendered command of each record with its one-based position and the
total. -/
theorem recordLoop_dispatchTriples (ex : Executor) (nodes : List TmplNode) (total : Nat)
    (hex : noDispatchEvents ex) :
    ∀ (i : Nat) (recs : List (List (String × String))),
      dispatchTriples (recordLoop ex nodes total i recs) =
        (List.enumFrom i recs).map fun p => (templateExecute nodes p.2, p.1, total) := by
  intro i recs
  induction recs generalizing i with
  | nil => rfl
  | cons rec rest ih =>
      have h := hex (templateExecute nodes rec) i total
      have hee :
          dispatchTriples (execErrEvents (ex (templateExecute nodes rec) i total).2) = [] :=
        dispatchTriples_execErrEvents _
      simp only [dispatchTriples] at h hee ih ⊢
      simp [recordLoop, List.filterMap_append, dispatchTripleOf, List.enumFrom, h, hee,
        ih (i + 1)]

/-- The standard error lines of a record loop over a silent executor
are exactly the failure reports, one per failing invocation, in order. -/
theorem recordLoop_stderrLines (ex : Executor) (nodes : List TmplNode) (total : Nat)
    (hex : noStderrEvents ex) :
    ∀ (i : Nat) (recs : List (List (String × String))),
      stderrLines (recordLoop ex nodes total i recs) =
        (List.enumFrom i recs).filterMap fun p =>
          match (ex (templateExecute nodes p.2) p.1 total).2 with
          | .ok _ => none
          | .error e => some ("Command execution error: " ++ e) := by
  intro i recs
  induction recs generalizing i with
  | nil => rfl
  | cons rec rest ih =>
      have h := hex (templateExecute nodes rec) i total
      simp only [stderrLines] at h
      cases hr : (ex (templateExecute nodes rec) i total).2 with
      | ok u =>
          simp [recordLoop, stderrLines, stderrLineOf, List.filterMap_append, hr,
            execErrEvents, List.enumFrom, h] at ih ⊢
          exact ih (i + 1)
      | error e =>
          simp [recordLoop, stderrLines, stderrLineOf, List.filterMap_append, hr,
            execErrEvents, List.enumFrom, h] at ih ⊢
          exact ih (i + 1)

/-- Under the print executor a record loop writes exactly the rendered
commands to standard output, in record order. -/
theorem recordLoop_print_stdout (nodes : List TmplNode) (total : Nat) :
    ∀ (i : Nat) (recs : List (List (String × String))),
      stdoutLines (recordLoop printCommand nodes total i recs) =
        recs.map (templateExecute nodes) := by
  intro i recs
  induction recs generalizing i with
  | nil => rfl
  | cons rec rest ih =>
      simp only [stdoutLines] at ih ⊢
      simp [recordLoop, List.filterMap_append, stdoutLineOf, printCommand, execErrEvents,
        ih (i + 1)]

/-- Under the print executor a record loop starts no subprocess. -/
theorem recordLoop_print_spawns (nodes : List TmplNode) (total : Nat) :
    ∀ (i : Nat) (recs : List (List (String × String))),
      spawnCalls (recordLoop printCommand nodes total i recs) = [] := by
  intro i recs
  induction recs generalizing i with
  | nil => rfl
  | cons rec rest ih =>
      simp only [spawnCalls] at ih ⊢
      simp [recordLoop, List.filterMap_append, spawnCallOf, printCommand, execErrEvents,
        ih (i + 1)]

/-- Under the print executor a record loop creates no log file. -/
theorem recordLoop_print_createLogs (nodes : List TmplNode) (total : Nat) :
    ∀ (i : Nat) (recs : List (List (String × String))),
      createLogCalls (recordLoop printCommand nodes total i recs) = [] := by
  intro i recs
  induction recs generalizing i with
  | nil => rfl
  | cons rec rest ih =>
      simp only [createLogCalls] at ih ⊢
      simp [recordLoop, List.filterMap_append, createLogOf, printCommand, execErrEvents,
        ih (i + 1)]

/-- The dispatch events of the JSONL loop: one invocation per line that
decodes, carrying the position of the line among the materialized lines
and their total count. -/
theorem jsonlLoop_dispatchTriples (ex : Executor) (nodes : List TmplNode) (total : Nat)
    (hex : noDispatchEvents ex) :
    ∀ (i : Nat) (lines : List String),
      dispatchTriples (jsonlLoop ex nodes total i lines) =
        (List.enumFrom i lines).filterMap fun p =>
          (jsonUnmarshalObject p.2).toOption.map fun row =>
            (templateExecute nodes (buildStringRow row), p.1, total) := by
  intro i lines
  induction lines generalizing i with
  | nil => rfl
  | cons line rest ih =>
      simp only [dispatchTriples] at ih ⊢
      cases hu : jsonUnmarshalObject line with
      | error e =>
          simp [jsonlLoop, List.filterMap_append, List.filterMap_cons, dispatchTripleOf,
            List.enumFrom, Except.toOption, hu, ih (i + 1)]
      | ok row =>
          have h := hex (templateExecute nodes (buildStringRow row)) i total
          have hee :
              dispatchTriples
                (execErrEvents (ex (templateExecute nodes (buildStringRow row)) i total).2) =
                [] :=
            dispatchTriples_execErrEvents _
          simp only [dispatchTriples] at h hee
          simp [jsonlLoop, List.filterMap_append, List.filterMap_cons, dispatchTripleOf,
            List.enumFrom, Except.toOption, hu, h, hee, ih (i + 1)]

/-- The standard error lines of the JSONL loop over a silent,
always-succeeding executor: exactly one parse diagnostic per line that
fails to decode, carrying the one-based line position. -/
theorem jsonlLoop_stderrLines (ex : Executor) (nodes : List TmplNode) (total : Nat)
    (hex : noStderrEvents ex) (hok : alwaysOk ex) :
    ∀ (i : Nat) (lines : List String),
      stderrLines (jsonlLoop ex nodes total i lines) =
        (List.enumFrom i lines).filterMap fun p =>
          match jsonUnmarshalObject p.2 with
          | .ok _ => none
          | .error e =>
              some ("Failed to parse JSON on line " ++ toString p.1 ++ ": " ++ e) := by
  intro i lines
  induction lines generalizing i with
  | nil => rfl
  | cons line rest ih =>
      simp only [stderrLines] at ih ⊢
      cases hu : jsonUnmarshalObject line with
      | error e =>
          simp [jsonlLoop, List.filterMap_append, List.filterMap_cons, stderrLineOf,
            List.enumFrom, hu, ih (i + 1)]
      | ok row =>
          have h := hex (templateExecute nodes (buildStringRow row)) i total
          have hr := hok (templateExecute nodes (buildStringRow row)) i total
          simp only [stderrLines] at h
          simp [jsonlLoop, List.filterMap_append, List.filterMap_cons, stderrLineOf,
            List.enumFrom, hu, h, hr, execErrEvents, ih (i + 1)]

/-- Under the print executor the JSONL loop prints exactly the rendered
command of each line that decodes, in line order. -/
theorem jsonlLoop_print_stdout (nodes : List TmplNode) (total : Nat) :
    ∀ (i : Nat) (lines : List String),
      stdoutLines (jsonlLoop printCommand nodes total i lines) =
        lines.filterMap fun l =>
          (jsonUnmarshalObject l).toOption.map fun row =>
            templateExecute nodes (buildStringRow row) := by
  intro i lines
  induction lines generalizing i with
  | nil => rfl
  | cons line rest ih =>
      simp only [stdoutLines] at ih ⊢
      cases hu : jsonUnmarshalObject line with
      | error e =>
          simp [jsonlLoop, List.filterMap_append, List.filterMap_cons, stdoutLineOf,
            Except.toOption, hu, ih (i + 1)]
      | ok row =>
          simp [jsonlLoop, List.filterMap_append, List.filterMap_cons, stdoutLineOf,
            printCommand, execErrEvents, Except.toOption, hu, ih (i + 1)]

/-- Under the print executor the JSONL loop starts no subprocess. -/
theorem jsonlLoop_print_spawns (nodes : List TmplNode) (total : Nat) :
    ∀ (i : Nat) (lines : List String),
      spawnCalls (jsonlLoop printCommand nodes total i lines) = [] := by
  intro i lines
  induction lines generalizing i with
  | nil => rfl
  | cons line rest ih =>
      simp only [spawnCalls] at ih ⊢
      cases hu : jsonUnmarshalObject line with
      | error e => simp [jsonlLoop, List.filterMap_append, spawnCallOf, hu, ih (i + 1)]
      | ok row =>
          simp [jsonlLoop, List.filterMap_append, spawnCallOf, printCommand, execErrEvents,
            hu, ih (i + 1)]

/-- A structurally well-formed row sequence containing a row whose
field count differs from the header count makes the checked reader
fail. -/
theorem csvReadRows_short :
    ∀ (fuel : Nat) (cs : List Char) (rs : List (List String)) (hcount : Nat),
      csvLexRows fuel cs = .ok rs → (∃ r ∈ rs, r.length ≠ hcount) →
      ∃ e, csvReadRows hcount fuel cs = .error e := by
  intro fuel
  induction fuel with
  | zero => intro cs rs hcount h; simp [csvLexRows] at h
  | succ fuel ih =>
      intro cs rs hcount h hshort
      rw [csvLexRows] at h
      rw [csvReadRows]
      cases hlr : csvLexRecord (fuel + 1) cs with
      | error e => rw [hlr] at h; exact absurd h (by simp)
      | ok o =>
          rw [hlr] at h
          cases o with
          | none =>
              simp at h
              subst h
              obtain ⟨r, hr, _⟩ := hshort
              exact absurd hr (List.not_mem_nil r)
          | some p =>
              obtain ⟨rec, rest⟩ := p
              simp only at h
              cases htail : csvLexRows fuel rest with
              | error e => rw [htail] at h; exact absurd h (by simp [Except.map])
              | ok rs' =>
                  rw [htail] at h
                  simp [Except.map] at h
                  subst h
                  by_cases hc : rec.length = hcount
                  · obtain ⟨r, hr, hlen⟩ := hshort
                    rcases List.mem_cons.mp hr with hEq | hmem
                    · subst hEq; exact absurd hc hlen
                    · obtain ⟨e, he⟩ := ih rest rs' hcount htail ⟨r, hmem, hlen⟩
                      refine ⟨e, ?_⟩
                      simp [hc, he, Except.map]
                  · exact ⟨"failed to read CSV row: wrong number of fields", by simp [hc]⟩

/-- A structurally well-formed row sequence whose rows all match the
header count passes the checked reader unchanged. -/
theorem csvReadRows_matched :
    ∀ (fuel : Nat) (cs : List Char) (rs : List (List String)) (hcount : Nat),
      csvLexRows fuel cs = .ok rs → (∀ r ∈ rs, r.length = hcount) →
      csvReadRows hcount fuel cs = .ok rs := by
  intro fuel
  induction fuel with
  | zero => intro cs rs hcount h; simp [csvLexRows] at h
  | succ fuel ih =>
      intro cs rs hcount h hmatch
      rw [csvLexRows] at h
      rw [csvReadRows]
      cases hlr : csvLexRecord (fuel + 1) cs with
      | error e => rw [hlr] at h; exact absurd h (by simp)
      | ok o =>
          rw [hlr] at h
          cases o with
          | none => simp at h; subst h; rfl
          | some p =>
              obtain ⟨rec, rest⟩ := p
              simp only at h
              cases htail : csvLexRows fuel rest with
              | error e => rw [htail] at h; exact absurd h (by simp [Except.map])
              | ok rs' =>
                  rw [htail] at h
                  simp [Except.map] at h
                  subst h
                  have hc : rec.length = hcount := hmatch rec (List.mem_cons_self rec rs')
                  have htl := ih rest rs' hcount htail fun r hr =>
                    hmatch r (List.mem_cons_of_mem rec hr)
                  simp [hc, htl, Except.map]

/-- Auxiliary form of the record construction equation, with an index
offset. -/
theorem buildRecord_aux :
    ∀ (hs : List String) (k : Nat) (row : List String),
      ((List.enumFrom k hs).filterMap fun p => (row.get? p.1).map fun v => (p.2, v)) =
        hs.zip (row.drop k) := by
  intro hs
  induction hs with
  | nil => intro k row; rfl
  | cons h t ih =>
      intro k row
      simp only [List.enumFrom, List.filterMap_cons]
      cases hg : row.get? k with
      | none =>
          have hge : row.length ≤ k := by
            rw [List.get?_eq_getElem?] at hg
            exact List.getElem?_eq_none_iff.mp hg
          have h1 : row.drop k = [] := List.drop_eq_nil_of_le hge
          have h2 : row.drop (k + 1) = [] :=
            List.drop_eq_nil_of_le (le_trans hge (Nat.le_succ k))
          rw [h1]
          have h3 := ih (k + 1) row
          rw [h2] at h3
          simp [hg, h3]
          intro a b hab
          exact le_trans hge (le_trans (Nat.le_succ k) (List.mem_enumFrom hab).1)
      | some v =>
          have hgG : row[k]? = some v := by rw [← List.get?_eq_getElem?]; exact hg
          have hlt : k < row.length := by
            by_contra hge
            rw [List.getElem?_eq_none_iff.mpr (Nat.le_of_not_lt hge)] at hgG
            exact absurd hgG (by simp)
          have hv : row[k] = v := by
            have h2 := List.getElem?_eq_getElem hlt
            rw [hgG] at h2
            exact Option.some_inj.mp h2.symm
          have hdrop : row.drop k = v :: row.drop (k + 1) := by
            rw [List.drop_eq_getElem_cons hlt, hv]
          rw [hdrop]
          simp [hg]
          simpa using ih (k + 1) row

/-- The record built from a CSV row binds the headers positionally to
the row values, truncating at the shorter of the two: header positions
beyond the row length are simply absent from the record. -/
theorem buildRecord_eq_zip (headers row : List String) :
    buildRecord headers row = headers.zip row := by
  have h := buildRecord_aux headers 0 row
  simpa [buildRecord, List.enum] using h

/-- Under the print executor the JSONL loop creates no log file. -/
theorem jsonlLoop_print_createLogs (nodes : List TmplNode) (total : Nat) :
    ∀ (i : Nat) (lines : List String),
      createLogCalls (jsonlLoop printCommand nodes total i lines) = [] := by
  intro i lines
  induction lines generalizing i with
  | nil => rfl
  | cons line rest ih =>
      simp only [createLogCalls] at ih ⊢
      cases hu : jsonUnmarshalObject line with
      | error e => simp [jsonlLoop, List.filterMap_append, createLogOf, hu, ih (i + 1)]
      | ok row =>
          simp [jsonlLoop, List.filterMap_append, createLogOf, printCommand, execErrEvents,
            hu, ih (i + 1)]

/-- Success test for a run result. -/
def runOk : Except String Unit → Bool
  | .ok _ => true
  | .error _ => false

instance {ε α : Type _} [DecidableEq ε] [DecidableEq α] : DecidableEq (Except ε α) :=
  fun a b =>
    match a, b with
    | .ok x, .ok y =>
        if h : x = y then isTrue (by rw [h]) else isFalse (by simp [h])
    | .error x, .error y =>
        if h : x = y then isTrue (by rw [h]) else isFalse (by simp [h])
    | .ok _, .error _ => isFalse (by simp)
    | .error _, .ok _ => isFalse (by simp)

/-- Under the print executor the standard output of a record loop is
exactly its dispatched command sequence. -/
theorem recordLoop_print_stdout_eq_dispatched (nodes : List TmplNode) (total : Nat) :
    ∀ (i : Nat) (recs : List (List (String × String))),
      stdoutLines (recordLoop printCommand nodes total i recs) =
        dispatchedCommands (recordLoop printCommand nodes total i recs) := by
  intro i recs
  induction recs generalizing i with
  | nil => rfl
  | cons rec rest ih =>
      simp only [stdoutLines, dispatchedCommands, dispatchTriples] at ih ⊢
      simp [recordLoop, List.filterMap_append, stdoutLineOf, dispatchTripleOf, printCommand,
        execErrEvents, ih (i + 1)]

/-- Under the print executor the standard output of the JSONL loop is
exactly its dispatched command sequence. -/
theorem jsonlLoop_print_stdout_eq_dispatched (nodes : List TmplNode) (total : Nat) :
    ∀ (i : Nat) (lines : List String),
      stdoutLines (jsonlLoop printCommand nodes total i lines) =
        dispatchedCommands (jsonlLoop printCommand nodes total i lines) := by
  intro i lines
  induction lines generalizing i with
  | nil => rfl
  | cons line rest ih =>
      simp only [stdoutLines, dispatchedCommands, dispatchTriples] at ih ⊢
      cases hu : jsonUnmarshalObject line with
      | error e =>
          simp [jsonlLoop, List.filterMap_append, stdoutLineOf, dispatchTripleOf, hu,
            ih (i + 1)]
      | ok row =>
          simp [jsonlLoop, List.filterMap_append, stdoutLineOf, dispatchTripleOf, printCommand,
            execErrEvents, hu, ih (i + 1)]

/-- An invalid template makes the CSV path fail with an empty trace. -/
theorem processCSV_template_error (o : Option String) (tmpl e : String) (ex : Executor)
    (h : templateParse tmpl = .error e) :
    runOk (processCSVWithProgressExecutor o tmpl ex).2 = false ∧
      (processCSVWithProgressExecutor o tmpl ex).1 = [] := by
  unfold processCSVWithProgressExecutor
  cases o with
  | none => exact ⟨rfl, rfl⟩
  | some content =>
      cases hc : csvReadAll content with
      | error e2 => simp [hc, runOk]
      | ok pr => obtain ⟨hs, rows⟩ := pr; simp [hc, h, runOk]

/-- An invalid template makes the JSON array path fail with an empty
trace. -/
theorem processJSON_template_error (o : Option String) (tmpl e : String) (ex : Executor)
    (h : templateParse tmpl = .error e) :
    runOk (processJSONWithProgressExecutor o tmpl ex).2 = false ∧
      (processJSONWithProgressExecutor o tmpl ex).1 = [] := by
  unfold processJSONWithProgressExecutor
  cases o with
  | none => exact ⟨rfl, rfl⟩
  | some content =>
      cases hc : jsonDecodeArrayOfObjects content with
      | error e2 => simp [hc, runOk]
      | ok data => simp [hc, h, runOk]

/-- An invalid template makes the JSONL path fail with an empty trace,
before any line is examined. -/
theorem processJSONL_template_error (o : Option String) (tmpl e : String) (ex : Executor)
    (h : templateParse tmpl = .error e) :
    runOk (processJSONLWithProgressExecutor o tmpl ex).2 = false ∧
      (processJSONLWithProgressExecutor o tmpl ex).1 = [] := by
  unfold processJSONLWithProgressExecutor
  cases o with
  | none => exact ⟨rfl, rfl⟩
  | some content => simp [h, runOk]

/-- An invalid template makes every extension branch fail with an empty
trace. -/
theorem dispatchByExt_template_error (env : Env) (dataFile tmpl e : String) (ex : Executor)
    (h : templateParse tmpl = .error e) :
    runOk (dispatchByExt env dataFile tmpl ex).2 = false ∧
      (dispatchByExt env dataFile tmpl ex).1 = [] := by
  unfold dispatchByExt
  split
  · exact processJSON_template_error _ tmpl e ex h
  · split
    · exact processJSONL_template_error _ tmpl e ex h
    · exact processCSV_template_error _ tmpl e ex h

/-- In dry-run mode the CSV path starts no subprocess, creates no log
file, and its standard output is exactly its dispatched commands. -/
theorem processCSV_dry_effects (o : Option String) (tmpl : String) :
    spawnCalls (processCSVWithProgressExecutor o tmpl printCommand).1 = [] ∧
      createLogCalls (processCSVWithProgressExecutor o tmpl printCommand).1 = [] ∧
      stdoutLines (processCSVWithProgressExecutor o tmpl printCommand).1 =
        dispatchedCommands (processCSVWithProgressExecutor o tmpl printCommand).1 := by
  unfold processCSVWithProgressExecutor
  cases o with
  | none => exact ⟨rfl, rfl, rfl⟩
  | some content =>
      cases hc : csvReadAll content with
      | error e2 => simp [hc, spawnCalls, createLogCalls, stdoutLines, dispatchedCommands,
          dispatchTriples]
      | ok pr =>
          obtain ⟨hs, rows⟩ := pr
          cases ht : templateParse tmpl with
          | error e => simp [hc, ht, spawnCalls, createLogCalls, stdoutLines,
              dispatchedCommands, dispatchTriples]
          | ok nodes =>
              simp only [hc, ht]
              exact ⟨recordLoop_print_spawns nodes rows.length 1 _,
                recordLoop_print_createLogs nodes rows.length 1 _,
                recordLoop_print_stdout_eq_dispatched nodes rows.length 1 _⟩

/-- In dry-run mode the JSON array path starts no subprocess, creates
no log file, and its standard output is exactly its dispatched
commands. -/
theorem processJSON_dry_effects (o : Option String) (tmpl : String) :
    spawnCalls (processJSONWithProgressExecutor o tmpl printCommand).1 = [] ∧
      createLogCalls (processJSONWithProgressExecutor o tmpl printCommand).1 = [] ∧
      stdoutLines (processJSONWithProgressExecutor o tmpl printCommand).1 =
        dispatchedCommands (processJSONWithProgressExecutor o tmpl printCommand).1 := by
  unfold processJSONWithProgressExecutor
  cases o with
  | none => exact ⟨rfl, rfl, rfl⟩
  | some content =>
      cases hc : jsonDecodeArrayOfObjects content with
      | error e2 => simp [hc, spawnCalls, createLogCalls, stdoutLines, dispatchedCommands,
          dispatchTriples]
      | ok data =>
          cases ht : templateParse tmpl with
          | error e => simp [hc, ht, spawnCalls, createLogCalls, stdoutLines,
              dispatchedCommands, dispatchTriples]
          | ok nodes =>
              simp only [hc, ht]
              exact ⟨recordLoop_print_spawns nodes data.length 1 _,
                recordLoop_print_createLogs nodes data.length 1 _,
                recordLoop_print_stdout_eq_dispatched nodes data.length 1 _⟩

/-- In dry-run mode the JSONL path starts no subprocess, creates no log
file, and its standard output is exactly its dispatched commands. -/
theorem processJSONL_dry_effects (o : Option String) (tmpl : String) :
    spawnCalls (processJSONLWithProgressExecutor o tmpl printCommand).1 = [] ∧
      createLogCalls (processJSONLWithProgressExecutor o tmpl printCommand).1 = [] ∧
      stdoutLines (processJSONLWithProgressExecutor o tmpl printCommand).1 =
        dispatchedCommands (processJSONLWithProgressExecutor o tmpl printCommand).1 := by
  unfold processJSONLWithProgressExecutor
  cases o with
  | none => exact ⟨rfl, rfl, rfl⟩
  | some content =>
      cases ht : templateParse tmpl with
      | error e => simp [ht, spawnCalls, createLogCalls, stdoutLines, dispatchedCommands,
          dispatchTriples]
      | ok nodes =>
          simp only [ht]
          exact ⟨jsonlLoop_print_spawns nodes _ 1 _,
            jsonlLoop_print_createLogs nodes _ 1 _,
            jsonlLoop_print_stdout_eq_dispatched nodes _ 1 _⟩

/-! ## Claim theorems -/

/-- Modelled from the spec: a shell-capable subprocess invocation of a
rendered command starts a shell with the command as its single argument,
so that the shell interprets operators such as pipes and redirects
appearing in the command string. -/
def specShellArgv (command : String) : String × List String :=
  ("/bin/sh", ["-c", command])

/-- Claim C1, counterexample: for the rendered command echo hi pipe wc,
the execution executor starts the program echo with the pipe operator
passed as a literal argument; this is not a shell-capable invocation,
so shell operators in the rendered command are not interpreted by a
shell. -/
theorem C1_counterexample :
    spawnCalls (executeCommandWithProgressAndLogging (fun _ _ => .ok ()) "T" false
        "echo hi | wc -l" 1 2).1 = [("echo", ["hi", "|", "wc", "-l"])]
    ∧ ("echo", ["hi", "|", "wc", "-l"]) ≠ specShellArgv "echo hi | wc -l"
    ∧ "|" ∈ ["hi", "|", "wc", "-l"] := by
  decide

/-- Claim C1, amended: for every rendered command, the execution
executor splits the command into whitespace-separated fields and starts
the first field as the program with the remaining fields as literal
arguments; no shell is involved, so shell operators in the rendered
command are passed through as literal arguments. -/
theorem C1_theorem (run : String → List String → Except String Unit)
    (ts : String) (logOn : Bool) (command p : String) (args : List String)
    (current total : Nat) (h : stringsFields command = p :: args) :
    spawnCalls (executeCommandWithProgressAndLogging run ts logOn command current total).1 =
      [(p, args)] := by
  unfold executeCommandWithProgressAndLogging
  rw [h]
  cases logOn <;> simp [spawnCalls, spawnCallOf]

/-- Witness for C1: a rendered command containing a redirect operator
is started as the program cat with the redirect passed literally. -/
theorem C1_theorem_witness :
    stringsFields "cat a.txt > b.txt" = "cat" :: ["a.txt", ">", "b.txt"]
    ∧ spawnCalls (executeCommandWithProgressAndLogging (fun _ _ => .ok ()) "T" true
        "cat a.txt > b.txt" 1 1).1 = [("cat", ["a.txt", ">", "b.txt"])] :=
  ⟨by decide, C1_theorem (fun _ _ => .ok ()) "T" true "cat a.txt > b.txt" "cat"
    ["a.txt", ">", "b.txt"] 1 1 (by decide)⟩

/-- Claim C2, counterexample: a CSV input with three headers and a data
row of two columns does not get processed with the missing field
absent; the reader rejects the row (field count enforcement) and the
whole run aborts with a fatal error before any command is dispatched. -/
theorem C2_counterexample :
    processCSVWithProgressExecutor (some "a,b,c\n1,2\n") "echo \x7b\x7b.a\x7d\x7d"
      printCommand =
    ([], .error "failed to read CSV row: wrong number of fields") := by
  decide

/-- Claim C2, amended: for every CSV input whose first record has H
header names, a subsequent data row with fewer than H columns is a
structural CSV error: the reader enforces a uniform field count, so the
whole run aborts with a fatal error and no command is dispatched,
exactly as for ragged quoting.  The positional zip that drops missing
trailing fields exists in the record construction, which binds headers
to row values truncating at the shorter list, but rows reaching it
always have exactly H columns. -/
theorem C2_theorem (content : String) (hs : List String) (rows : List (List String))
    (tmpl : String) (ex : Executor)
    (h1 : csvLexRecords content = .ok (hs :: rows))
    (h2 : ∃ r ∈ rows, r.length < hs.length) :
    (∃ e, csvReadAll content = .error e ∧
        processCSVWithProgressExecutor (some content) tmpl ex = ([], .error e))
    ∧ (∀ headers row, buildRecord headers row = headers.zip row) := by
  refine ⟨?_, fun headers row => buildRecord_eq_zip headers row⟩
  simp only [csvLexRecords] at h1
  cases hlr : csvLexRecord ((normalizeCRLF content.data).length + 1) (normalizeCRLF content.data) with
  | error e => rw [hlr] at h1; exact absurd h1 (by simp)
  | ok o =>
      rw [hlr] at h1
      cases o with
      | none => simp at h1
      | some pr =>
          obtain ⟨rec, rest⟩ := pr
          simp only at h1
          cases htail : csvLexRows (normalizeCRLF content.data).length rest with
          | error e => rw [htail] at h1; exact absurd h1 (by simp [Except.map])
          | ok rs' =>
              rw [htail] at h1
              simp [Except.map] at h1
              rw [h1.1] at hlr
              rw [h1.2] at htail
              obtain ⟨r, hr, hlen⟩ := h2
              obtain ⟨e, he⟩ :=
                csvReadRows_short (normalizeCRLF content.data).length rest rows hs.length
                  htail ⟨r, hr, Nat.ne_of_lt hlen⟩
              refine ⟨e, ?_, ?_⟩
              · simp only [csvReadAll]
                rw [hlr]
                simp [he, Except.map]
              · simp only [processCSVWithProgressExecutor, csvReadAll]
                rw [hlr]
                simp [he, Except.map]

/-- Witness for C2: the concrete short-row input aborts the run. -/
theorem C2_theorem_witness :
    (∃ e, csvReadAll "a,b,c\n1,2\n" = .error e ∧
        processCSVWithProgressExecutor (some "a,b,c\n1,2\n") "echo" printCommand =
          ([], .error e))
    ∧ (∀ headers row, buildRecord headers row = headers.zip row) :=
  C2_theorem "a,b,c\n1,2\n" ["a", "b", "c"] [["1", "2"]] "echo" printCommand
    (by decide) (by decide)

/-- Claim C4, code bug: with headers name and email, row Alice, and the
template echo with a missing field, the code renders the no-value
marker of the template engine instead of the empty string promised by
the specification and by the repository tests: the run does not abort,
but the placeholder renders as the no-value marker. -/
theorem C4_theorem :
    processCSVWithProgressExecutor (some "name,email\nAlice,a@x.com\n")
      "echo \x7b\x7b.missing\x7d\x7d" printCommand =
    ([Event.dispatch "echo <no value>" 1 1, Event.stdoutLine "echo <no value>"], .ok ()) := by
  decide

/-- Claim C8: value coercion of decoded JSON values, with the concrete
example from the specification evaluated end to end through the JSON
array pipeline, and an end-to-end nested example showing the compact
serialization with sorted keys. -/
theorem C8_theorem :
    processJSONWithProgressExecutor
        (some "[\x7b\"id\":1,\"active\":true,\"score\":95.5\x7d]")
        "\x7b\x7b.id\x7d\x7d \x7b\x7b.active\x7d\x7d \x7b\x7b.score\x7d\x7d"
        printCommand =
      ([Event.dispatch "1 true 95.5" 1 1, Event.stdoutLine "1 true 95.5"], .ok ())
    ∧ (∀ b, coerceValue (.bool b) = if b then "true" else "false")
    ∧ coerceValue .null = ""
    ∧ (∀ s, coerceValue (.str s) = s)
    ∧ (∀ f, coerceValue (.num f) = formatFloatG f)
    ∧ (∀ xs, coerceValue (.arr xs) = goJSONMarshal (.arr xs))
    ∧ (∀ fs, coerceValue (.obj fs) = goJSONMarshal (.obj fs))
    ∧ processJSONLWithProgressExecutor
        (some "\x7b\"x\":\x7b\"b\":2,\"a\":1\x7d\x7d")
        "\x7b\x7b.x\x7d\x7d" printCommand =
      ([Event.dispatch "\x7b\"a\":1,\"b\":2\x7d" 1 1,
        Event.stdoutLine "\x7b\"a\":1,\"b\":2\x7d"], .ok ()) := by
  refine ⟨by decide, fun b => by cases b <;> rfl, rfl, fun s => rfl, fun f => rfl,
    fun xs => rfl, fun fs => rfl, by decide⟩

/-- Claim C10: with logging enabled, the log file (named from the data
file base name and the captured timestamp) is created before the data
file is opened; when the data file cannot be opened the run aborts
fatally, and the already created log file is the entire trace, with
nothing removing it. -/
theorem C10_theorem (env : Env) (dataFile tmpl : String)
    (h1 : env.fs dataFile = none) (h2 : env.logCreateOk = true) :
    processDataFileWithOptions env dataFile tmpl false false =
      ([Event.createLog (logFileName dataFile env.logTimestamp)],
       .error "failed to open data file") := by
  simp [processDataFileWithOptions, dispatchByExt, h1, h2,
    processCSVWithProgressExecutor, processJSONWithProgressExecutor,
    processJSONLWithProgressExecutor]

/-- Witness for C10: a concrete environment whose data file fails to
open still creates the log file first and aborts. -/
theorem C10_theorem_witness :
    processDataFileWithOptions
      ⟨fun _ => none, true, fun _ _ => .ok (), "T", "L"⟩ "users.csv" "echo" false false =
    ([Event.createLog (logFileName "users.csv" "L")], .error "failed to open data file") :=
  C10_theorem ⟨fun _ => none, true, fun _ _ => .ok (), "T", "L"⟩ "users.csv" "echo"
    rfl rfl

/-- Claim C3: for every JSONL input, every line that fails to decode is
skipped with exactly one diagnostic on the error stream (carrying its
one-based position among the materialized lines), every line that
decodes produces exactly one rendered command, in line order, and the
processing function returns success. -/
theorem C3_theorem (content tmpl : String) (nodes : List TmplNode) (ex : Executor)
    (h1 : templateParse tmpl = .ok nodes)
    (h2 : noDispatchEvents ex) (h3 : noStderrEvents ex) (h4 : alwaysOk ex) :
    runOk (processJSONLWithProgressExecutor (some content) tmpl ex).2 = true
    ∧ dispatchTriples (processJSONLWithProgressExecutor (some content) tmpl ex).1 =
        ((List.enumFrom 1 (jsonlLines content)).filterMap fun p =>
          (jsonUnmarshalObject p.2).toOption.map fun row =>
            (templateExecute nodes (buildStringRow row), p.1, (jsonlLines content).length))
    ∧ stderrLines (processJSONLWithProgressExecutor (some content) tmpl ex).1 =
        ((List.enumFrom 1 (jsonlLines content)).filterMap fun p =>
          match jsonUnmarshalObject p.2 with
          | .ok _ => none
          | .error e =>
              some ("Failed to parse JSON on line " ++ toString p.1 ++ ": " ++ e)) := by
  simp only [processJSONLWithProgressExecutor, h1]
  exact ⟨rfl, jsonlLoop_dispatchTriples ex nodes _ h2 1 _,
    jsonlLoop_stderrLines ex nodes _ h3 h4 1 _⟩

/-- Witness for C3: a three-line JSONL input whose middle line is
malformed yields the two rendered commands in order, one diagnostic
naming line two, and a successful run. -/
theorem C3_theorem_witness :
    runOk (processJSONLWithProgressExecutor
        (some "\x7b\"a\":\"x\"\x7d\nnotjson\n\x7b\"a\":\"y\"\x7d")
        "echo \x7b\x7b.a\x7d\x7d" printCommand).2 = true
    ∧ dispatchTriples (processJSONLWithProgressExecutor
        (some "\x7b\"a\":\"x\"\x7d\nnotjson\n\x7b\"a\":\"y\"\x7d")
        "echo \x7b\x7b.a\x7d\x7d" printCommand).1 = [("echo x", 1, 3), ("echo y", 3, 3)]
    ∧ stderrLines (processJSONLWithProgressExecutor
        (some "\x7b\"a\":\"x\"\x7d\nnotjson\n\x7b\"a\":\"y\"\x7d")
        "echo \x7b\x7b.a\x7d\x7d" printCommand).1 =
        ["Failed to parse JSON on line 2: invalid character"] := by
  have h := C3_theorem "\x7b\"a\":\"x\"\x7d\nnotjson\n\x7b\"a\":\"y\"\x7d"
    "echo \x7b\x7b.a\x7d\x7d" [.text "echo ", .field "a"] printCommand (by decide)
    printCommand_noDispatchEvents printCommand_noStderrEvents printCommand_alwaysOk
  refine ⟨h.1, ?_, ?_⟩
  · rw [h.2.1]; decide
  · rw [h.2.2]; decide

/-- Claim C5: over any subprocess outcome oracle, the CSV processing
function returns success, dispatches every record in order (no failure
stops the run), reports exactly the failing invocations on standard
error, and an empty rendered command (whitespace only) is the
per-record empty command error. -/
theorem C5_theorem (content tmpl ts : String) (hs : List String)
    (rows : List (List String)) (nodes : List TmplNode)
    (run : String → List String → Except String Unit) (logOn : Bool)
    (h1 : csvReadAll content = .ok (hs, rows)) (h2 : templateParse tmpl = .ok nodes) :
    runOk (processCSVWithProgressExecutor (some content) tmpl
        (executeCommandWithProgressAndLogging run ts logOn)).2 = true
    ∧ dispatchTriples (processCSVWithProgressExecutor (some content) tmpl
        (executeCommandWithProgressAndLogging run ts logOn)).1 =
        ((List.enumFrom 1 (rows.map (buildRecord hs))).map fun p =>
          (templateExecute nodes p.2, p.1, rows.length))
    ∧ stderrLines (processCSVWithProgressExecutor (some content) tmpl
        (executeCommandWithProgressAndLogging run ts logOn)).1 =
        ((List.enumFrom 1 (rows.map (buildRecord hs))).filterMap fun p =>
          match (executeCommandWithProgressAndLogging run ts logOn
              (templateExecute nodes p.2) p.1 rows.length).2 with
          | .ok _ => none
          | .error e => some ("Command execution error: " ++ e))
    ∧ (∀ c i t, stringsFields c = [] →
        executeCommandWithProgressAndLogging run ts logOn c i t =
          ([], .error "empty command")) := by
  simp only [processCSVWithProgressExecutor, h1, h2]
  refine ⟨rfl,
    recordLoop_dispatchTriples _ nodes rows.length (execCmd_noDispatchEvents run ts logOn) 1 _,
    recordLoop_stderrLines _ nodes rows.length (execCmd_noStderrEvents run ts logOn) 1 _,
    fun c i t hf => ?_⟩
  unfold executeCommandWithProgressAndLogging
  rw [hf]

/-- Witness for C5: three records of which the second renders to the
empty command and the third spawns a failing subprocess; all three are
dispatched, both failures are reported, and the run succeeds. -/
theorem C5_theorem_witness :
    runOk (processCSVWithProgressExecutor (some "name\nAlice\n\"\"\nBob\n")
        "\x7b\x7b.name\x7d\x7d"
        (executeCommandWithProgressAndLogging
          (fun p _ => if p = "Bob" then .error "exit status 1" else .ok ()) "T" false)).2 =
      true
    ∧ dispatchTriples (processCSVWithProgressExecutor (some "name\nAlice\n\"\"\nBob\n")
        "\x7b\x7b.name\x7d\x7d"
        (executeCommandWithProgressAndLogging
          (fun p _ => if p = "Bob" then .error "exit status 1" else .ok ()) "T" false)).1 =
        [("Alice", 1, 3), ("", 2, 3), ("Bob", 3, 3)]
    ∧ stderrLines (processCSVWithProgressExecutor (some "name\nAlice\n\"\"\nBob\n")
        "\x7b\x7b.name\x7d\x7d"
        (executeCommandWithProgressAndLogging
          (fun p _ => if p = "Bob" then .error "exit status 1" else .ok ()) "T" false)).1 =
        ["Command execution error: empty command",
         "Command execution error: exit status 1"]
    ∧ executeCommandWithProgressAndLogging
        (fun p _ => if p = "Bob" then .error "exit status 1" else .ok ()) "T" false
        "   " 2 3 = ([], .error "empty command") := by
  have h := C5_theorem "name\nAlice\n\"\"\nBob\n" "\x7b\x7b.name\x7d\x7d" "T" ["name"]
    [["Alice"], [""], ["Bob"]] [.field "name"]
    (fun p _ => if p = "Bob" then .error "exit status 1" else .ok ()) false
    (by decide) (by decide)
  refine ⟨h.1, ?_, ?_, h.2.2.2 "   " 2 3 (by decide)⟩
  · rw [h.2.1]; decide
  · rw [h.2.2.1]; decide

/-- Claim C6: for each input format the whole record sequence is
materialized before the loop, and every dispatch carries the one-based
position of its record in that sequence together with the sequence
length as the total; in execute mode, for a nonempty command with
positive progress values the executor prints the bracketed progress
line (and duplicates it to the log when logging is on) before the
subprocess spawn. -/
theorem C6_theorem (ccsv cjson cjsonl tmpl ts : String) (hs : List String)
    (rows : List (List String)) (data : List JSONFields) (nodes : List TmplNode)
    (run : String → List String → Except String Unit) (logOn : Bool)
    (h1 : csvReadAll ccsv = .ok (hs, rows))
    (h2 : jsonDecodeArrayOfObjects cjson = .ok data)
    (h3 : templateParse tmpl = .ok nodes) :
    dispatchTriples (processCSVWithProgressExecutor (some ccsv) tmpl
        (executeCommandWithProgressAndLogging run ts logOn)).1 =
      (List.enumFrom 1 (rows.map (buildRecord hs))).map (fun p =>
        (templateExecute nodes p.2, p.1, rows.length))
    ∧ dispatchTriples (processJSONWithProgressExecutor (some cjson) tmpl
        (executeCommandWithProgressAndLogging run ts logOn)).1 =
      (List.enumFrom 1 (data.map buildStringRow)).map (fun p =>
        (templateExecute nodes p.2, p.1, data.length))
    ∧ dispatchTriples (processJSONLWithProgressExecutor (some cjsonl) tmpl
        (executeCommandWithProgressAndLogging run ts logOn)).1 =
      (List.enumFrom 1 (jsonlLines cjsonl)).filterMap (fun p =>
        (jsonUnmarshalObject p.2).toOption.map fun row =>
          (templateExecute nodes (buildStringRow row), p.1, (jsonlLines cjsonl).length))
    ∧ (∀ (c p : String) (args : List String) (i t : Nat),
        stringsFields c = p :: args → 0 < i → 0 < t →
        (executeCommandWithProgressAndLogging run ts logOn c i t).1 =
          Event.stdoutLine s!"[{i}/{t}] {ts} Executing: {c}" ::
            ((if logOn then [Event.logLine s!"[{i}/{t}] {ts} Executing: {c}"] else []) ++
              [Event.spawn p args])) := by
  refine ⟨?_, ?_, ?_, ?_⟩
  · simp only [processCSVWithProgressExecutor, h1, h3]
    exact recordLoop_dispatchTriples _ nodes rows.length
      (execCmd_noDispatchEvents run ts logOn) 1 _
  · simp only [processJSONWithProgressExecutor, h2, h3]
    exact recordLoop_dispatchTriples _ nodes data.length
      (execCmd_noDispatchEvents run ts logOn) 1 _
  · simp only [processJSONLWithProgressExecutor, h3]
    exact jsonlLoop_dispatchTriples _ nodes _ (execCmd_noDispatchEvents run ts logOn) 1 _
  · intro c p args i t hf hi ht
    unfold executeCommandWithProgressAndLogging
    rw [hf]
    simp [hi, ht]

/-- Witness for C6: a one-row CSV file, a one-object JSON file and a
one-line JSONL file each dispatch their record as position one of one,
and the executor prints the bracketed progress line before the spawn. -/
theorem C6_theorem_witness :
    dispatchTriples (processCSVWithProgressExecutor (some "name\nAlice\n")
        "echo \x7b\x7b.name\x7d\x7d"
        (executeCommandWithProgressAndLogging (fun _ _ => .ok ()) "T" true)).1 =
      [("echo Alice", 1, 1)]
    ∧ dispatchTriples (processJSONWithProgressExecutor (some "[\x7b\"name\":\"Bo\"\x7d]")
        "echo \x7b\x7b.name\x7d\x7d"
        (executeCommandWithProgressAndLogging (fun _ _ => .ok ()) "T" true)).1 =
      [("echo Bo", 1, 1)]
    ∧ dispatchTriples (processJSONLWithProgressExecutor (some "\x7b\"name\":\"Cy\"\x7d")
        "echo \x7b\x7b.name\x7d\x7d"
        (executeCommandWithProgressAndLogging (fun _ _ => .ok ()) "T" true)).1 =
      [("echo Cy", 1, 1)]
    ∧ (executeCommandWithProgressAndLogging (fun _ _ => .ok ()) "T" true "echo Alice" 1 1).1 =
      Event.stdoutLine "[1/1] T Executing: echo Alice" ::
        ((if true then [Event.logLine "[1/1] T Executing: echo Alice"] else []) ++
          [Event.spawn "echo" ["Alice"]]) := by
  have h := C6_theorem "name\nAlice\n" "[\x7b\"name\":\"Bo\"\x7d]" "\x7b\"name\":\"Cy\"\x7d"
    "echo \x7b\x7b.name\x7d\x7d" "T" ["name"] [["Alice"]]
    [JSONFields.cons "name" (.str "Bo") .nil] [.text "echo ", .field "name"]
    (fun _ _ => .ok ()) true (by decide) (by rfl) (by decide)
  refine ⟨?_, ?_, ?_, ?_⟩
  · rw [h.1]; decide
  · rw [h.2.1]; decide
  · rw [h.2.2.1]; decide
  · have h4 := h.2.2.2 "echo Alice" "echo" ["Alice"] 1 1 (by decide)
      (by decide) (by decide)
    rw [h4]
    decide

/-- Claim C7: an invalid template aborts the run with a fatal error
before any record is rendered or dispatched, for every input file and
every mode: the run result is a failure and the trace contains no
dispatch, no subprocess and no output line. -/
theorem C7_theorem (env : Env) (dataFile tmpl e : String) (dryRun noLogFiles : Bool)
    (h : templateParse tmpl = .error e) :
    runOk (processDataFileWithOptions env dataFile tmpl dryRun noLogFiles).2 = false
    ∧ dispatchTriples (processDataFileWithOptions env dataFile tmpl dryRun noLogFiles).1 = []
    ∧ spawnCalls (processDataFileWithOptions env dataFile tmpl dryRun noLogFiles).1 = []
    ∧ stdoutLines (processDataFileWithOptions env dataFile tmpl dryRun noLogFiles).1 = [] := by
  unfold processDataFileWithOptions
  split
  · split
    · obtain ⟨hA, hB⟩ := dispatchByExt_template_error env dataFile tmpl e
        (executeCommandWithProgressAndLogging env.runOracle env.timestamp true) h
      constructor
      · exact hA
      · rw [hB]
        simp [dispatchTriples, dispatchTripleOf, spawnCalls, spawnCallOf,
          stdoutLines, stdoutLineOf]
    · exact ⟨rfl, rfl, rfl, rfl⟩
  · obtain ⟨hA, hB⟩ := dispatchByExt_template_error env dataFile tmpl e _ h
    rw [hB]
    exact ⟨hA, rfl, rfl, rfl⟩

/-- Witness for C7: an unbalanced template aborts a CSV run in execute
mode with logging, with no dispatch, spawn or output. -/
theorem C7_theorem_witness :
    runOk (processDataFileWithOptions
        ⟨fun _ => some "name\nAlice\n", true, fun _ _ => .ok (), "T", "L"⟩
        "users.csv" "echo \x7b\x7b.name" false false).2 = false
    ∧ dispatchTriples (processDataFileWithOptions
        ⟨fun _ => some "name\nAlice\n", true, fun _ _ => .ok (), "T", "L"⟩
        "users.csv" "echo \x7b\x7b.name" false false).1 = []
    ∧ spawnCalls (processDataFileWithOptions
        ⟨fun _ => some "name\nAlice\n", true, fun _ _ => .ok (), "T", "L"⟩
        "users.csv" "echo \x7b\x7b.name" false false).1 = []
    ∧ stdoutLines (processDataFileWithOptions
        ⟨fun _ => some "name\nAlice\n", true, fun _ _ => .ok (), "T", "L"⟩
        "users.csv" "echo \x7b\x7b.name" false false).1 = [] :=
  C7_theorem ⟨fun _ => some "name\nAlice\n", true, fun _ _ => .ok (), "T", "L"⟩
    "users.csv" "echo \x7b\x7b.name" "unclosed action" false false (by decide)

/-- Claim C9: in dry-run mode no subprocess is started and no log file
is created, the standard output is exactly the dispatched command
sequence for every input, and for each valid input the printed lines
are the rendered commands of its records, one per record, in record
order. -/
theorem C9_theorem (env : Env) (dataFile ccsv cjson cjsonl tmpl : String)
    (noLogFiles : Bool) (hs : List String) (rows : List (List String))
    (data : List JSONFields) (nodes : List TmplNode)
    (h1 : csvReadAll ccsv = .ok (hs, rows))
    (h2 : jsonDecodeArrayOfObjects cjson = .ok data)
    (h3 : templateParse tmpl = .ok nodes) :
    spawnCalls (processDataFileWithOptions env dataFile tmpl true noLogFiles).1 = []
    ∧ createLogCalls (processDataFileWithOptions env dataFile tmpl true noLogFiles).1 = []
    ∧ stdoutLines (processDataFileWithOptions env dataFile tmpl true noLogFiles).1 =
        dispatchedCommands (processDataFileWithOptions env dataFile tmpl true noLogFiles).1
    ∧ stdoutLines (processCSVWithProgressExecutor (some ccsv) tmpl printCommand).1 =
        (rows.map (buildRecord hs)).map (templateExecute nodes)
    ∧ stdoutLines (processJSONWithProgressExecutor (some cjson) tmpl printCommand).1 =
        (data.map buildStringRow).map (templateExecute nodes)
    ∧ stdoutLines (processJSONLWithProgressExecutor (some cjsonl) tmpl printCommand).1 =
        (jsonlLines cjsonl).filterMap (fun l =>
          (jsonUnmarshalObject l).toOption.map fun row =>
            templateExecute nodes (buildStringRow row)) := by
  have hmode : processDataFileWithOptions env dataFile tmpl true noLogFiles =
      dispatchByExt env dataFile tmpl printCommand := by
    unfold processDataFileWithOptions
    simp
  rw [hmode]
  have hdry : spawnCalls (dispatchByExt env dataFile tmpl printCommand).1 = []
      ∧ createLogCalls (dispatchByExt env dataFile tmpl printCommand).1 = []
      ∧ stdoutLines (dispatchByExt env dataFile tmpl printCommand).1 =
          dispatchedCommands (dispatchByExt env dataFile tmpl printCommand).1 := by
    unfold dispatchByExt
    split
    · exact processJSON_dry_effects _ tmpl
    · split
      · exact processJSONL_dry_effects _ tmpl
      · exact processCSV_dry_effects _ tmpl
  refine ⟨hdry.1, hdry.2.1, hdry.2.2, ?_, ?_, ?_⟩
  · simp only [processCSVWithProgressExecutor, h1, h3]
    exact recordLoop_print_stdout nodes rows.length 1 _
  · simp only [processJSONWithProgressExecutor, h2, h3]
    exact recordLoop_print_stdout nodes data.length 1 _
  · simp only [processJSONLWithProgressExecutor, h3]
    exact jsonlLoop_print_stdout nodes _ 1 _

/-- Witness for C9: concrete dry runs over the three formats print
exactly the rendered commands, with no spawn and no log file. -/
theorem C9_theorem_witness :
    spawnCalls (processDataFileWithOptions
        ⟨fun _ => some "name\nAlice\nBob\n", true, fun _ _ => .ok (), "T", "L"⟩
        "users.csv" "echo \x7b\x7b.name\x7d\x7d" true false).1 = []
    ∧ createLogCalls (processDataFileWithOptions
        ⟨fun _ => some "name\nAlice\nBob\n", true, fun _ _ => .ok (), "T", "L"⟩
        "users.csv" "echo \x7b\x7b.name\x7d\x7d" true false).1 = []
    ∧ stdoutLines (processDataFileWithOptions
        ⟨fun _ => some "name\nAlice\nBob\n", true, fun _ _ => .ok (), "T", "L"⟩
        "users.csv" "echo \x7b\x7b.name\x7d\x7d" true false).1 =
        dispatchedCommands (processDataFileWithOptions
          ⟨fun _ => some "name\nAlice\nBob\n", true, fun _ _ => .ok (), "T", "L"⟩
          "users.csv" "echo \x7b\x7b.name\x7d\x7d" true false).1
    ∧ stdoutLines (processCSVWithProgressExecutor (some "name\nAlice\nBob\n")
        "echo \x7b\x7b.name\x7d\x7d" printCommand).1 = ["echo Alice", "echo Bob"]
    ∧ stdoutLines (processJSONWithProgressExecutor (some "[\x7b\"name\":\"Bo\"\x7d]")
        "echo \x7b\x7b.name\x7d\x7d" printCommand).1 = ["echo Bo"]
    ∧ stdoutLines (processJSONLWithProgressExecutor (some "\x7b\"name\":\"Cy\"\x7d")
        "echo \x7b\x7b.name\x7d\x7d" printCommand).1 = ["echo Cy"] := by
  have h := C9_theorem
    ⟨fun _ => some "name\nAlice\nBob\n", true, fun _ _ => .ok (), "T", "L"⟩
    "users.csv" "name\nAlice\nBob\n" "[\x7b\"name\":\"Bo\"\x7d]" "\x7b\"name\":\"Cy\"\x7d"
    "echo \x7b\x7b.name\x7d\x7d" false ["name"] [["Alice"], ["Bob"]]
    [JSONFields.cons "name" (.str "Bo") .nil] [.text "echo ", .field "name"]
    (by decide) (by rfl) (by decide)
  refine ⟨h.1, h.2.1, h.2.2.1, ?_, ?_, ?_⟩
  · rw [h.2.2.2.1]; decide
  · rw [h.2.2.2.2.1]; decide
  · rw [h.2.2.2.2.2]; decide

end Xrun
